import Mathlib

/-!
# Verification of the plum-ems core against its specification

Shallow embedding of the Endorsement Management System's core services
(`app/ledger/service.py`, `app/endorsement_request/orchestrator.py`,
`app/endorsement_request/service.py`, `app/ledger/hold_release.py`,
`app/insurer_gateway/service.py`, `app/core/base/repository.py`) and proofs
about the spec's claims over that embedding.

Conventions used throughout:
* Python `Decimal` values are modelled as `ℚ` (all operations the code uses on
  them — `+`, `-`, `max`, comparisons — are exact in both).
* JSON-like dynamic values (Kafka payloads, request bodies) are modelled by an
  inductive `JValue`; Python `dict.get` returning `None` is `Option JValue`.
* A value `v` for which Python's `Decimal(str(v))` succeeds is modelled as
  `JValue.num`; every other value raises `InvalidOperation`/`TypeError` there,
  which the source converts to `Decimal("0")`.
* Database tables are lists of row records; SQL `UPDATE ... WHERE id = x`
  maps every matching row, and a `SELECT` without `ORDER BY` returns its rows
  in an order the database does not fix, modelled as an explicit permutation
  argument where it matters.
-/

namespace EMS

/-- JSON-like dynamic values used for Kafka payloads and request bodies. -/
inductive JValue where
  | null : JValue
  | bool (b : Bool) : JValue
  | num (q : ℚ) : JValue
  | str (s : String) : JValue
  | arr (items : List JValue) : JValue
  | obj (fields : List (String × JValue)) : JValue
  deriving Repr

/-- First value bound to a key in an object's field list (Python `dict` keys are
unique, so first match is the match). -/
def lookupField : List (String × JValue) → String → Option JValue
  | [], _ => none
  | (k, v) :: rest, key => if k = key then some v else lookupField rest key

/-- Python `payload.get(key)`: `none` when the key is absent (or the value is
not a `dict`, where the source would raise; theorems that depend on nested
lookups carry object-shape hypotheses). -/
def JValue.get : JValue → String → Option JValue
  | .obj fields, key => lookupField fields key
  | _, _ => none

/-- Python `str.upper()` modelled character-wise (every string the modelled
code uppercases is ASCII). -/
def pyUpper (s : String) : String := ⟨s.data.map Char.toUpper⟩

/-- Python `str.lower()` modelled character-wise (every string the modelled
code lowercases is ASCII). -/
def pyLower (s : String) : String := ⟨s.data.map Char.toLower⟩

/-- Python truthiness of a JSON value. -/
def JValue.truthy : JValue → Bool
  | .null => false
  | .bool b => b
  | .num q => q != 0
  | .str s => !s.isEmpty
  | .arr items => !items.isEmpty
  | .obj fields => !fields.isEmpty

/-- Truthiness of a `dict.get` result (`None` is falsy). -/
def truthyOpt : Option JValue → Bool
  | none => false
  | some v => v.truthy

/-- Python `a or b` on two `dict.get` results. -/
def pyOr (a b : Option JValue) : Option JValue :=
  if truthyOpt a then a else b

/-- Python `a or d` where `d` is a literal default (e.g. `x.get("k") or {}`). -/
def pyOrElse (a : Option JValue) (d : JValue) : JValue :=
  match a with
  | some v => if v.truthy then v else d
  | none => d

/-- `payload.get(key)` when the code then requires a truthy string (ids and
trace ids are strings in every message this system builds). -/
def getTruthyStr (v : JValue) (key : String) : Option String :=
  match v.get key with
  | some (.str s) => if s.isEmpty then none else some s
  | _ => none

/-- `payload.get(key, default)` where the code treats the value as a string
(a present non-string would raise at the subsequent `.upper()` in the source;
the claims only concern string-typed fields). -/
def getStrD (v : JValue) (key dflt : String) : String :=
  match v.get key with
  | some (.str s) => s
  | _ => dflt

/-- `payload.get(key) or default` where the code treats the value as a string:
a falsy value (absent, `None`, `""`) yields the default (a truthy non-string
would raise at the subsequent `.upper()` in the source). -/
def getStrOr (v : JValue) (key dflt : String) : String :=
  match v.get key with
  | some (.str s) => if s.isEmpty then dflt else s
  | _ => dflt

/-- Python dict assignment `d[k] = x`: replaces in place if the key exists,
else appends. -/
def objSet (v : JValue) (k : String) (x : JValue) : JValue :=
  match v with
  | .obj fields =>
      if fields.any (fun p => p.1 = k) then
        .obj (fields.map (fun p => if p.1 = k then (k, x) else p))
      else
        .obj (fields ++ [(k, x)])
  | other => other

/-! ## Ledger Engine (`app/ledger/service.py`, `app/ledger/pricing.py`) -/

/-- A `LedgerTransaction` row as inserted by `LedgerService.process_check_funds`. -/
structure LedgerTxn where
  employerId : String
  endorsementId : Option String
  type : String
  amount : ℚ
  status : String
  deriving Repr, DecidableEq

/-- Events emitted by the ledger service.  The fresh `reservation_id`
(`uuid4().hex`) and the wall-clock `timestamp` of `publish_balance_increase`
are nondeterministic and carried by no claim, so they are not modelled. -/
inductive LedgerEvent where
  | fundsLocked (endorsementId employerId : String) (lockedAmount : ℚ) (status : String)
      (traceId : Option String) (message : Option String)
      (newBalance : Option ℚ) (requestType : Option String) : LedgerEvent
  | balanceIncreased (employerId : String) (changeAmount newBalance : ℚ)
      (source : String) : LedgerEvent
  deriving Repr, DecidableEq

/-- Committed database state seen by the ledger: each employer's `ea_balance`
(`none` when no employer row exists) and the `LedgerTransaction` table. -/
structure LedgerState where
  employers : String → Option ℚ
  txns : List LedgerTxn

/-- `LedgerPricingClient.get_endorsement_price`.  The `pricing` map models
`settings.LEDGER_ENDORSEMENT_PRICING` with its keys already uppercased, as the
client's constructor does. -/
def getEndorsementPrice (pricing : List (String × ℚ)) (requestType : String) : ℚ :=
  let normalized := pyUpper (if requestType.isEmpty then "ADDITION" else requestType)
  match pricing.lookup normalized with
  | some p => p
  | none => (pricing.lookup "ADDITION").getD 0

/-- The candidate amount chosen by `LedgerService._extract_amount` before
decimal conversion: `payload.amount`, else (when a truthy nested `payload`
exists) `payload.payload.amount`, else (when a truthy `coverage` exists)
`payload.payload.coverage.amount`. -/
def extractAmountRaw (payload : JValue) : Option JValue :=
  match payload.get "amount" with
  | some a => some a
  | none =>
    match payload.get "payload" with
    | some pp =>
      if pp.truthy then
        match pp.get "amount" with
        | some a => some a
        | none =>
          match pp.get "coverage" with
          | some cov => if cov.truthy then cov.get "amount" else none
          | none => none
      else none
    | none => none

/-- `Decimal(str(amount)) if amount is not None else Decimal("0")`, with
`TypeError`/`InvalidOperation` caught and mapped to `0`.  A value whose string
form parses as a decimal is modelled as `.num`. -/
def pyDecimal : Option JValue → ℚ
  | some (.num q) => q
  | _ => 0

/-- `LedgerService._extract_amount`. -/
def extractAmount (payload : JValue) : ℚ :=
  pyDecimal (extractAmountRaw payload)

/-- `LedgerService._resolve_amount`: the extracted amount when it is strictly
positive, otherwise the pricing stub's price. -/
def resolveAmount (pricing : List (String × ℚ)) (payload : JValue)
    (requestType : String) : ℚ :=
  let amount := extractAmount payload
  if 0 < amount then amount else getEndorsementPrice pricing requestType

/-- `LedgerService.process_check_funds`: returns the committed state and the
events emitted (in emission order). -/
def processCheckFunds (pricing : List (String × ℚ)) (st : LedgerState)
    (kafkaPayload : JValue) : LedgerState × List LedgerEvent :=
  match getTruthyStr kafkaPayload "endorsement_id",
        getTruthyStr kafkaPayload "employer_id" with
  | some eid, some empId =>
    let requestType := getStrD kafkaPayload "request_type" "ADDITION"
    let traceId := getTruthyStr kafkaPayload "trace_id"
    let amount := max 0 (resolveAmount pricing kafkaPayload requestType)
    let isCredit := pyUpper requestType = "DELETION"
    match st.employers empId with
    | none =>
      (st, [.fundsLocked eid empId amount "FAILED" traceId
              (some "Employer not found") none none])
    | some currentBalance =>
      let newBalance := if isCredit then currentBalance + amount
                        else currentBalance - amount
      if !isCredit && currentBalance < amount then
        ({ st with
            txns := st.txns ++ [⟨empId, some eid, "DEBIT", amount, "ON_HOLD_FUNDS"⟩] },
         [.fundsLocked eid empId amount "ON_HOLD" traceId
            (some "Insufficient funds") none none])
      else
        ({ employers := fun e => if e = empId then some newBalance else st.employers e,
           txns := st.txns ++
             [⟨empId, some eid, if isCredit then "CREDIT" else "DEBIT", amount, "LOCKED"⟩] },
         (if isCredit && 0 < amount then
            [.balanceIncreased empId amount newBalance "ledger_credit"]
          else []) ++
         [.fundsLocked eid empId amount "LOCKED" traceId none (some newBalance)
            (if requestType.isEmpty then none else some requestType)])
  | _, _ => (st, [])

/-- Sum of `CREDIT` amounts over an employer's rows with status `LOCKED` or
`CLEARED`. -/
def creditSum (txns : List LedgerTxn) (emp : String) : ℚ :=
  ((txns.filter (fun t =>
      t.employerId == emp && t.type == "CREDIT" &&
      (t.status == "LOCKED" || t.status == "CLEARED"))).map (fun t => t.amount)).sum

/-- Sum of `DEBIT` amounts over an employer's rows with status `LOCKED` or
`CLEARED`. -/
def debitSum (txns : List LedgerTxn) (emp : String) : ℚ :=
  ((txns.filter (fun t =>
      t.employerId == emp && t.type == "DEBIT" &&
      (t.status == "LOCKED" || t.status == "CLEARED"))).map (fun t => t.amount)).sum

/-- The reconciliation invariant: every existing employer's balance equals its
ledger's CREDIT-minus-DEBIT sum over `LOCKED`/`CLEARED` rows. -/
def BalancedState (st : LedgerState) : Prop :=
  ∀ emp bal, st.employers emp = some bal → bal = creditSum st.txns emp - debitSum st.txns emp

/-! ## Endorsement rows and the base repository
(`app/endorsement_request/model.py`, `app/core/base/repository.py`) -/

/-- An `EndorsementRequest` row.  `effective_date` is kept as its ISO string
(only `isoformat()` is ever applied to it in the modelled code). -/
structure EndorsementRow where
  id : String
  employerId : String
  type : String
  status : String
  payload : JValue
  retryCount : Nat
  traceId : Option String
  effectiveDate : String
  deriving Repr

/-- The column values the orchestrator and hold-release pass to
`BaseRepository.update` (`employer_id`, `status`, and optionally
`retry_count`). -/
structure UpdateValues where
  employerId : Option String
  status : Option String
  retryCount : Option Nat
  deriving Repr

/-- `UPDATE ... SET <values>` applied to one row. -/
def applyValues (vals : UpdateValues) (r : EndorsementRow) : EndorsementRow :=
  { r with
      employerId := vals.employerId.getD r.employerId,
      status := vals.status.getD r.status,
      retryCount := vals.retryCount.getD r.retryCount }

/-- `BaseRepository.update`: rewrites every row matching `WHERE id = rowId`
with the given values (no guard of any kind on the current status), then
returns `get_by_id(id)` — the first matching row. -/
def repoUpdate (table : List EndorsementRow) (rowId : String) (vals : UpdateValues) :
    List EndorsementRow × Option EndorsementRow :=
  let table2 := table.map (fun r => if r.id = rowId then applyValues vals r else r)
  (table2, table2.find? (fun r => r.id == rowId))

/-! ## Endorsement Orchestrator (`app/endorsement_request/orchestrator.py`) -/

/-- Kafka topic names.  Modelled from the spec: the
`settings.KAFKA_TOPIC_*` fields the services reference are not defined
anywhere under `src/`; the spec's §6 lists the topic names. -/
def prioritizedTopic : String := "endorsement.prioritized"

/-- Modelled from the spec (see `prioritizedTopic`). -/
def checkFundsTopic : String := "ledger.check_funds"

/-- Modelled from the spec (see `prioritizedTopic`). -/
def insurerRequestTopic : String := "insurer.request"

/-- Modelled from the spec (see `prioritizedTopic`). -/
def insurerRetryTopic : String := "insurer.request.retry"

/-- Modelled from the spec (see `prioritizedTopic`). -/
def insurerDlqTopic : String := "insurer.request.dlq"

/-- Modelled from the spec (see `prioritizedTopic`). -/
def completedTopic : String := "endorsement.completed"

/-- A Kafka produce call: topic and JSON value (headers and partition key
carry no claim). -/
structure Publish where
  topic : String
  value : JValue
  deriving Repr

/-- `EndorsementOrchestratorService._update_request_status`: delegates to
`BaseRepository.update` with `employer_id` and `status` (and `retry_count`
when given) as the values to write. -/
def updateRequestStatus (table : List EndorsementRow) (eid empId status : String)
    (retryCount : Option Nat) : List EndorsementRow × Option EndorsementRow :=
  repoUpdate table eid ⟨some empId, some status, retryCount⟩

/-- `ledger_context = {key: kp[key] for key in (locked_amount, reservation_id,
new_balance) if kp.get(key) is not None}`. -/
def ledgerContextFields (kp : JValue) : List (String × JValue) :=
  ["locked_amount", "reservation_id", "new_balance"].filterMap
    (fun k => (kp.get k).map (fun v => (k, v)))

/-- `EndorsementOrchestratorService._build_insurer_request_payload`. -/
def buildInsurerRequestPayload (kafkaPayload : JValue)
    (fallbackPayload : Option JValue) : JValue :=
  let payload := pyOrElse (pyOr (kafkaPayload.get "payload") fallbackPayload) (.obj [])
  let insurerId := pyOr (payload.get "insurer_id")
    (pyOr ((pyOrElse (payload.get "coverage") (.obj [])).get "insurer_id")
      (kafkaPayload.get "insurer_id"))
  let base := JValue.obj
    [("endorsement_id", (kafkaPayload.get "endorsement_id").getD .null),
     ("employer_id", (kafkaPayload.get "employer_id").getD .null),
     ("request_type", (kafkaPayload.get "type").getD .null),
     ("trace_id", (kafkaPayload.get "trace_id").getD .null),
     ("payload", payload),
     ("ledger_context", .obj (ledgerContextFields kafkaPayload))]
  if truthyOpt insurerId then objSet base "insurer_id" (insurerId.getD .null) else base

/-- `EndorsementOrchestratorService._dispatch_insurer_request`. -/
def dispatchInsurerRequest (table : List EndorsementRow) (kp : JValue)
    (endorsement : EndorsementRow) : List EndorsementRow × List Publish :=
  let t1 := (updateRequestStatus table endorsement.id endorsement.employerId "SENT" none).1
  let insurerPayload := objSet (buildInsurerRequestPayload kp (some endorsement.payload))
    "retry_count" (.num endorsement.retryCount)
  (t1, [⟨insurerRequestTopic, insurerPayload⟩])

/-- `EndorsementOrchestratorService.handle_funds_locked_event`. -/
def handleFundsLockedEvent (table : List EndorsementRow) (kp : JValue) :
    List EndorsementRow × List Publish :=
  match getTruthyStr kp "endorsement_id", getTruthyStr kp "employer_id" with
  | some eid, some empId =>
    let ledgerStatus := pyUpper (getStrD kp "status" "")
    if ledgerStatus = "LOCKED" then
      match updateRequestStatus table eid empId "FUNDS_LOCKED" none with
      | (t1, none) => (t1, [])
      | (t1, some endorsement) => dispatchInsurerRequest t1 kp endorsement
    else if ledgerStatus = "ON_HOLD" then
      ((updateRequestStatus table eid empId "ON_HOLD" none).1, [])
    else
      ((updateRequestStatus table eid empId "FAILED" none).1, [])
  | _, _ => (table, [])

/-- `EndorsementOrchestratorService._extract_error_details`. -/
def extractErrorDetails (kp : JValue) : JValue :=
  match kp.get "error" with
  | some (.obj fields) =>
      if !fields.isEmpty then .obj fields else extractErrorFallback kp
  | _ => extractErrorFallback kp
where
  /-- The `{"message": ..., "code": ...}` fallback dictionary. -/
  extractErrorFallback (kp : JValue) : JValue :=
    .obj [("message",
            (pyOr (kp.get "message")
              (pyOr (kp.get "error_message") (kp.get "status"))).getD .null),
          ("code", (kp.get "error_code").getD .null)]

/-- `EndorsementOrchestratorService._calculate_retry_delay_seconds`:
`int(backoff_base ** retry_count * 60)`. -/
def calculateRetryDelaySeconds (backoffBase retryCount : Nat) : Nat :=
  backoffBase ^ retryCount * 60

/-- `EndorsementOrchestratorService._build_dlq_payload` (the
`insurer_status`/`insurer_response` enrichment carries no claim and is
included when the triggering Kafka payload is supplied). -/
def buildDlqPayload (endorsement : EndorsementRow) (errorDetails : JValue)
    (kp : Option JValue) : JValue :=
  let base := JValue.obj
    [("endorsement_id", .str endorsement.id),
     ("employer_id", .str endorsement.employerId),
     ("type", .str endorsement.type),
     ("payload", endorsement.payload),
     ("trace_id", (endorsement.traceId.map JValue.str).getD .null),
     ("retry_count", .num endorsement.retryCount),
     ("status", .str "FAILED"),
     ("error", errorDetails)]
  match kp with
  | some kp' =>
      objSet (objSet base "insurer_status" ((kp'.get "status").getD .null))
        "insurer_response"
        ((pyOr (kp'.get "insurer_response") (kp'.get "response")).getD .null)
  | none => base

/-- `EndorsementOrchestratorService._schedule_insurer_retry`.  `maxRetries`
and `backoffBase` carry the constructor's clamps
(`max(settings.INSURER_MAX_RETRIES, 1)`,
`max(settings.ENDORSEMENT_RETRY_BACKOFF_BASE, 2)`). -/
def scheduleInsurerRetry (maxRetries backoffBase : Nat)
    (table : List EndorsementRow) (kp : JValue) (endorsement : EndorsementRow)
    (errorDetails : JValue) : List EndorsementRow × List Publish :=
  let nextRetry := endorsement.retryCount + 1
  if nextRetry > maxRetries then
    let t1 := (updateRequestStatus table endorsement.id endorsement.employerId
      "FAILED" (some nextRetry)).1
    (t1, [⟨insurerDlqTopic, buildDlqPayload endorsement errorDetails (some kp)⟩])
  else
    let delay := calculateRetryDelaySeconds backoffBase nextRetry
    let retryPayload :=
      objSet (objSet (buildInsurerRequestPayload kp (some endorsement.payload))
          "retry_count" (.num nextRetry))
        "retry_delay_seconds" (.num delay)
    let retryPayload :=
      if errorDetails.truthy then objSet retryPayload "last_error" errorDetails
      else retryPayload
    let t1 := (updateRequestStatus table endorsement.id endorsement.employerId
      "SENT" (some nextRetry)).1
    (t1, [⟨insurerRetryTopic, retryPayload⟩])

/-- `EndorsementOrchestratorService._mark_failed_business`. -/
def markFailedBusiness (table : List EndorsementRow) (endorsement : EndorsementRow)
    (errorDetails : JValue) : List EndorsementRow × List Publish :=
  let t1 := (updateRequestStatus table endorsement.id endorsement.employerId
    "FAILED" (some endorsement.retryCount)).1
  (t1, [⟨insurerDlqTopic, buildDlqPayload endorsement errorDetails none⟩])

/-- Python-level errors the orchestrator can raise. -/
inductive PyErr where
  | typeError : PyErr
  deriving Repr, DecidableEq

/-- `EndorsementOrchestratorService._get_endorsement` (orchestrator.py:276)
invokes `repo.get_by_id(endorsement_id, employer_id=employer_id)`, but
`BaseRepository.get_by_id(self, id, load_relationships=None)` accepts no
`employer_id` keyword, so the call raises `TypeError` before reaching the
database. -/
def getEndorsement (_table : List EndorsementRow) (_eid _empId : String) :
    Except PyErr (Option EndorsementRow) :=
  .error .typeError

/-- `EndorsementOrchestratorService._handle_insurer_failure`. -/
def handleInsurerFailure (maxRetries backoffBase : Nat)
    (table : List EndorsementRow) (kp : JValue) (eid empId errorType : String) :
    Except PyErr (List EndorsementRow × List Publish) := do
  let endorsement? ← getEndorsement table eid empId
  match endorsement? with
  | none => pure (table, [])
  | some endorsement =>
    let errorDetails := extractErrorDetails kp
    if errorType = "BUSINESS" then
      pure (markFailedBusiness table endorsement errorDetails)
    else
      pure (scheduleInsurerRetry maxRetries backoffBase table kp endorsement errorDetails)

/-- `EndorsementOrchestratorService._build_completion_payload`. -/
def buildCompletionPayload (kp : JValue) (endorsement : EndorsementRow) : JValue :=
  .obj [("endorsement_id", .str endorsement.id),
        ("employer_id", .str endorsement.employerId),
        ("trace_id",
          (pyOr (kp.get "trace_id") (endorsement.traceId.map JValue.str)).getD .null),
        ("retry_count", .num endorsement.retryCount),
        ("status", .str "ACTIVE"),
        ("insurer_response",
          (pyOr (kp.get "insurer_response") (kp.get "response")).getD .null)]

/-- `EndorsementOrchestratorService._finalize_success`. -/
def finalizeSuccess (table : List EndorsementRow) (eid empId : String)
    (kp : JValue) : List EndorsementRow × List Publish :=
  match updateRequestStatus table eid empId "CONFIRMED" none with
  | (t1, none) => (t1, [])
  | (t1, some confirmed) =>
    let t2 := (updateRequestStatus t1 eid empId "ACTIVE" none).1
    (t2, [⟨completedTopic, buildCompletionPayload kp confirmed⟩])

/-- `EndorsementOrchestratorService.handle_insurer_success_event`. -/
def handleInsurerSuccessEvent (maxRetries backoffBase : Nat)
    (table : List EndorsementRow) (kp : JValue) :
    Except PyErr (List EndorsementRow × List Publish) :=
  match getTruthyStr kp "endorsement_id", getTruthyStr kp "employer_id" with
  | some eid, some empId =>
    let status := pyUpper (getStrOr kp "status" "SUCCESS")
    if status = "SUCCESS" then
      pure (finalizeSuccess table eid empId kp)
    else
      let errorType := pyUpper (getStrOr kp "error_type" "TECHNICAL")
      handleInsurerFailure maxRetries backoffBase table kp eid empId errorType
  | _, _ => pure (table, [])

/-! ## Smart Scheduler (`app/endorsement_request/service.py`) -/

/-- `SmartSchedulerService._process_batch`'s `get_priority`: `DELETION=1`,
`MODIFICATION=2`, `ADDITION=3`, anything else `99`. -/
def schedulerPrio (req : JValue) : Nat :=
  let rtype := pyUpper (getStrD req "type" "")
  if rtype = "DELETION" then 1
  else if rtype = "MODIFICATION" then 2
  else if rtype = "ADDITION" then 3
  else 99

/-- Stable insertion step: the new element (which arrived earlier than every
element already placed) goes in front of the first element whose priority is
not strictly smaller. -/
def insertByPrio (x : JValue) : List JValue → List JValue
  | [] => [x]
  | y :: ys =>
    if schedulerPrio y < schedulerPrio x then y :: insertByPrio x ys
    else x :: y :: ys

/-- `requests.sort(key=get_priority)`: Python's `list.sort` is a stable sort
by the key, embedded here as a stable insertion sort. -/
def sortByPrio (l : List JValue) : List JValue :=
  l.foldr insertByPrio []

/-- `SmartSchedulerService._process_batch` from the point the buffered items
have been read: each raw item either JSON-decodes to a request (`some`) or is
dropped with an error log (`none`); the survivors are sorted and published to
`endorsement.prioritized` in list order. -/
def processBatch (items : List (Option JValue)) : List JValue :=
  sortByPrio (items.filterMap id)

/-! ## Hold-Release (`app/ledger/hold_release.py`,
`app/endorsement_request/repository.py`) -/

/-- The rows matching `EndorsementRequestRepository.get_on_hold_by_employer_id`'s
`WHERE` clause, in table (arrival) order.  The query has no `ORDER BY`, so the
database may hand them back in any order; `releaseOnHoldRequests` therefore
takes the fetched ordering as an argument constrained to be a permutation of
this list. -/
def onHoldRows (table : List EndorsementRow) (empId : String) : List EndorsementRow :=
  table.filter (fun r => r.employerId == empId && r.status == "ON_HOLD")

/-- `HoldReleaseService._dispatch_ledger_retry`'s `ledger.check_funds`
payload, built from the fetched row. -/
def checkFundsRetryPayload (r : EndorsementRow) : JValue :=
  .obj [("endorsement_id", .str r.id),
        ("employer_id", .str r.employerId),
        ("request_type", .str r.type),
        ("effective_date", .str r.effectiveDate),
        ("payload", r.payload),
        ("trace_id", (r.traceId.map JValue.str).getD .null),
        ("retry_count", .num r.retryCount)]

/-- The release loop body: for each fetched row, update it to `VALIDATED`
(writing the event's `employer_id` as a value) and attempt one publish.
`pubOk i` says whether the `i`-th `produce` call succeeds; `_dispatch_ledger_retry`
catches and logs a failure, so the loop continues either way and the produce
attempt is recorded with its outcome flag. -/
def releaseLoop (empId : String) (pubOk : Nat → Bool) :
    Nat → List EndorsementRow → List EndorsementRow →
    List EndorsementRow × List (Bool × JValue)
  | _, table, [] => (table, [])
  | i, table, r :: rest =>
    let t1 := (repoUpdate table r.id ⟨some empId, some "VALIDATED", none⟩).1
    let tail := releaseLoop empId pubOk (i + 1) t1 rest
    (tail.1, (pubOk i, checkFundsRetryPayload r) :: tail.2)

/-- `HoldReleaseService.release_on_hold_requests`.  `fetched` is the list the
database returned for the un-ordered `SELECT` (see `onHoldRows`). -/
def releaseOnHoldRequests (table : List EndorsementRow) (eventPayload : JValue)
    (fetched : List EndorsementRow) (pubOk : Nat → Bool) :
    List EndorsementRow × List (Bool × JValue) :=
  match getTruthyStr eventPayload "employer_id" with
  | none => (table, [])
  | some empId =>
    if fetched.isEmpty then (table, [])
    else releaseLoop empId pubOk 0 table fetched

/-! ## Insurer Gateway (`app/insurer_gateway/service.py`) -/

/-- `InsurerGatewayService._resolve_insurer_id`:
`coverage.insurer_id or payload.insurer_id or kafka_payload.insurer_id`, kept
only when the winner is a string. -/
def resolveInsurerIdGateway (kafkaPayload : JValue) : Option String :=
  let payload := pyOrElse (kafkaPayload.get "payload") (.obj [])
  let coverage := pyOrElse (payload.get "coverage") (.obj [])
  match pyOr (coverage.get "insurer_id")
      (pyOr (payload.get "insurer_id") (kafkaPayload.get "insurer_id")) with
  | some (.str s) => some s
  | _ => none

/-- Python `pat in s` substring containment, checked position by position. -/
def containsSubstr (s pat : String) : Bool :=
  containsAux pat.data s.data
where
  /-- Check a prefix match at the head of every suffix. -/
  containsAux (pat : List Char) : List Char → Bool
    | [] => pat.isPrefixOf []
    | c :: rest => pat.isPrefixOf (c :: rest) || containsAux pat rest

/-- The header-name test of `InsurerGatewayService._sanitize_headers`. -/
def flaggedHeader (k : String) : Bool :=
  containsSubstr (pyLower k) "authorization" || containsSubstr (pyLower k) "token" ||
    containsSubstr (pyLower k) "secret"

/-- `InsurerGatewayService._sanitize_headers`. -/
def sanitizeHeaders (headers : List (String × String)) : List (String × String) :=
  headers.map (fun kv => if flaggedHeader kv.1 then (kv.1, "***") else kv)

/-- Membership test against `SENSITIVE_KEYS = {"ssn", "dob"}` after
lowercasing. -/
def sensitiveKey (k : String) : Bool :=
  pyLower k == "ssn" || pyLower k == "dob"

mutual

/-- `InsurerGatewayService._mask_sensitive_data`. -/
def maskSensitiveData : JValue → JValue
  | .obj fields => .obj (maskFields fields)
  | .arr items => .arr (maskItems items)
  | v => v

/-- Dictionary case of `_mask_sensitive_data`. -/
def maskFields : List (String × JValue) → List (String × JValue)
  | [] => []
  | (k, v) :: rest =>
    (k, if sensitiveKey k then .str "***" else maskSensitiveData v) :: maskFields rest

/-- List case of `_mask_sensitive_data`. -/
def maskItems : List JValue → List JValue
  | [] => []
  | v :: rest => maskSensitiveData v :: maskItems rest

end

mutual

/-- No sensitive key anywhere carries a value other than the literal `"***"`. -/
def noLeak : JValue → Bool
  | .obj fields => noLeakFields fields
  | .arr items => noLeakItems items
  | _ => true

/-- `noLeak` over dictionary fields. -/
def noLeakFields : List (String × JValue) → Bool
  | [] => true
  | (k, v) :: rest =>
    (if sensitiveKey k then
       match v with
       | .str s => s == "***"
       | _ => false
     else noLeak v) && noLeakFields rest

/-- `noLeak` over list items. -/
def noLeakItems : List JValue → Bool
  | [] => true
  | v :: rest => noLeak v && noLeakItems rest

end

mutual

/-- No key anywhere in the value is sensitive. -/
def noSensitiveKeys : JValue → Bool
  | .obj fields => noSensitiveKeysFields fields
  | .arr items => noSensitiveKeysItems items
  | _ => true

/-- `noSensitiveKeys` over dictionary fields. -/
def noSensitiveKeysFields : List (String × JValue) → Bool
  | [] => true
  | (k, v) :: rest => !sensitiveKey k && noSensitiveKeys v && noSensitiveKeysFields rest

/-- `noSensitiveKeys` over list items. -/
def noSensitiveKeysItems : List JValue → Bool
  | [] => true
  | v :: rest => noSensitiveKeys v && noSensitiveKeysItems rest

end

/-! ## Concrete fixtures used by counterexamples and witnesses -/

/-- An endorsement row already in the terminal state `ACTIVE`. -/
def c4Row : EndorsementRow :=
  ⟨"e1", "m1", "ADDITION", "ACTIVE", .obj [], 0, none, "2026-01-01"⟩

/-- A `ledger.funds_locked` event with `status=LOCKED` for `c4Row`. -/
def c4Event : JValue :=
  .obj [("endorsement_id", .str "e1"), ("employer_id", .str "m1"),
        ("status", .str "LOCKED")]

/-- A row in state `SENT`, awaiting the insurer outcome. -/
def c3Row : EndorsementRow :=
  ⟨"e3", "m3", "ADDITION", "SENT", .obj [], 0, none, "2026-01-01"⟩

/-- A non-`SUCCESS` insurer outcome event with a `TECHNICAL` error. -/
def c3Event : JValue :=
  .obj [("endorsement_id", .str "e3"), ("employer_id", .str "m3"),
        ("status", .str "FAILURE"), ("error_type", .str "TECHNICAL")]

/-- A `ledger.funds_locked` event whose `payload` carries both
`payload.insurer_id = "A"` and `payload.coverage.insurer_id = "B"`. -/
def c8Event : JValue :=
  .obj [("endorsement_id", .str "e8"), ("employer_id", .str "m8"),
        ("type", .str "ADDITION"),
        ("payload", .obj [("insurer_id", .str "A"),
                          ("coverage", .obj [("insurer_id", .str "B")])])]

/-! ## C10 -/

/-- C10: the orchestrator's status update selects the row by `endorsement_id`
alone; the event's `employer_id` is written as a value, so a row whose stored
`employer_id` differs from the event's is still transitioned and its
`employer_id` is overwritten with the event's value. -/
theorem C10_update_ignores_stored_employer
    (table : List EndorsementRow) (r : EndorsementRow) (evEmp newStatus : String)
    (rc : Option Nat) (hmem : r ∈ table) (_hne : r.employerId ≠ evEmp) :
    { r with status := newStatus, employerId := evEmp,
             retryCount := rc.getD r.retryCount } ∈
      (updateRequestStatus table r.id evEmp newStatus rc).1 := by
  have h := List.mem_map_of_mem
    (fun x => if x.id = r.id then applyValues ⟨some evEmp, some newStatus, rc⟩ x else x) hmem
  simpa [updateRequestStatus, repoUpdate, applyValues] using h

/-- Witness for C10 at a concrete table: the stored employer is `"m1"`, the
event claims `"other"`, and the row is transitioned anyway with its employer
overwritten. -/
theorem C10_update_ignores_stored_employer_witness :
    { c4Row with status := "FUNDS_LOCKED", employerId := "other",
                 retryCount := (none : Option Nat).getD c4Row.retryCount } ∈
      (updateRequestStatus [c4Row] c4Row.id "other" "FUNDS_LOCKED" none).1 :=
  C10_update_ignores_stored_employer [c4Row] c4Row "other" "FUNDS_LOCKED" none
    (List.mem_singleton.mpr rfl) (by decide)

/-! ## C4 -/

/-- C4 counterexample: a row already in the terminal state `ACTIVE` receives a
further `funds_locked(LOCKED)` event and is re-transitioned (to `FUNDS_LOCKED`
and then `SENT`), so handling a further event does not leave a terminal row's
status unchanged. -/
theorem C4_counterexample :
    ((handleFundsLockedEvent [c4Row] c4Event).1.map (fun r => r.status) = ["SENT"])
    ∧ ("SENT" : String) ≠ "ACTIVE" := by
  constructor
  · rfl
  · decide

/-- C4 amended: `BaseRepository.update` carries no guard on the current
status; even for a row in a terminal state (`ACTIVE` or `FAILED`) a further
status update rewrites the row to the target status (and the event's
`employer_id`) instead of being a no-op. -/
theorem C4_no_terminal_guard
    (table : List EndorsementRow) (r : EndorsementRow) (empId newStatus : String)
    (rc : Option Nat) (hmem : r ∈ table)
    (_hterm : r.status = "ACTIVE" ∨ r.status = "FAILED") :
    { r with status := newStatus, employerId := empId,
             retryCount := rc.getD r.retryCount } ∈
      (updateRequestStatus table r.id empId newStatus rc).1 := by
  have h := List.mem_map_of_mem
    (fun x => if x.id = r.id then applyValues ⟨some empId, some newStatus, rc⟩ x else x) hmem
  simpa [updateRequestStatus, repoUpdate, applyValues] using h

/-- Witness for C4's amended statement: the terminal `ACTIVE` row `c4Row` is
rewritten to `FUNDS_LOCKED` by a further update. -/
theorem C4_no_terminal_guard_witness :
    { c4Row with status := "FUNDS_LOCKED", employerId := "m1",
                 retryCount := (none : Option Nat).getD c4Row.retryCount } ∈
      (updateRequestStatus [c4Row] c4Row.id "m1" "FUNDS_LOCKED" none).1 :=
  C4_no_terminal_guard [c4Row] c4Row "m1" "FUNDS_LOCKED" none
    (List.mem_singleton.mpr rfl) (Or.inl rfl)

/-! ## C3 -/

/-- C3: handling any non-`SUCCESS` insurer outcome raises `TypeError` inside
`_get_endorsement` (the `employer_id` keyword is not accepted by
`BaseRepository.get_by_id`), so neither the `FAILED` transition, nor the
retry publication, nor the DLQ publication claimed by the spec ever happens;
the retry/DLQ branch (`_schedule_insurer_retry`) is unreachable. -/
theorem C3_failure_path_raises :
    handleInsurerSuccessEvent 3 2 [c3Row] c3Event = .error .typeError := rfl

/-! ## C8 -/

/-- C8 counterexample: with both `payload.insurer_id = "A"` and
`payload.coverage.insurer_id = "B"` present, the orchestrator places `"A"`
(it consults `payload.insurer_id` first) into the `insurer.request` message,
while the gateway resolves `"B"` from that same message; they do not both
equal `payload.coverage.insurer_id`. -/
theorem C8_counterexample :
    getTruthyStr (buildInsurerRequestPayload c8Event none) "insurer_id" = some "A"
    ∧ resolveInsurerIdGateway (buildInsurerRequestPayload c8Event none) = some "B"
    ∧ ("A" : String) ≠ "B" := by
  refine ⟨rfl, rfl, by decide⟩

/-- C8 amended: when both `payload.coverage.insurer_id` and
`payload.insurer_id` are present (truthy strings), the gateway resolves
`payload.coverage.insurer_id` (its precedence is coverage first), but the
orchestrator places `payload.insurer_id` in the `insurer.request` message (its
precedence is `payload.insurer_id` first, then `payload.coverage.insurer_id`,
then the event-level `insurer_id`). -/
theorem C8_resolution_precedence
    (kp pl cov : JValue) (fb : Option JValue) (a b : String)
    (hkp : kp.get "payload" = some pl) (hpl : pl.truthy = true)
    (ha : pl.get "insurer_id" = some (.str a)) (ha' : a ≠ "")
    (hcov : pl.get "coverage" = some cov) (hct : cov.truthy = true)
    (hb : cov.get "insurer_id" = some (.str b)) (hb' : b ≠ "") :
    getTruthyStr (buildInsurerRequestPayload kp fb) "insurer_id" = some a
    ∧ resolveInsurerIdGateway kp = some b := by
  have hae : a.isEmpty = false := by
    cases h : a.isEmpty
    · rfl
    · exact absurd ((String.isEmpty_iff a).mp h) ha'
  have hbe : b.isEmpty = false := by
    cases h : b.isEmpty
    · rfl
    · exact absurd ((String.isEmpty_iff b).mp h) hb'
  have hat : (JValue.str a).truthy = true := by simp [JValue.truthy, hae]
  have hbt : (JValue.str b).truthy = true := by simp [JValue.truthy, hbe]
  have hpayload : pyOrElse (pyOr (kp.get "payload") fb) (.obj []) = pl := by
    simp [pyOr, pyOrElse, truthyOpt, hkp, hpl]
  constructor
  · have hiid : pyOr (pl.get "insurer_id")
        (pyOr ((pyOrElse (pl.get "coverage") (.obj [])).get "insurer_id")
          (kp.get "insurer_id")) = some (.str a) := by
      simp [pyOr, truthyOpt, ha, hat]
    simp only [buildInsurerRequestPayload, hpayload, hiid]
    simp [truthyOpt, hat, objSet, getTruthyStr, JValue.get, lookupField, hae]
  · have hpayload2 : pyOrElse (kp.get "payload") (.obj []) = pl := by
      simp [pyOrElse, hkp, hpl]
    have hcovElse : pyOrElse (pl.get "coverage") (.obj []) = cov := by
      simp [pyOrElse, hcov, hct]
    simp only [resolveInsurerIdGateway, hpayload2, hcovElse]
    simp [pyOr, truthyOpt, hb, hbt]

/-! ## C2 -/

/-- C2: on a debit (`ADDITION`/`MODIFICATION`) `check_funds` event for an
existing employer whose balance is below the resolved amount, the ledger
inserts exactly one `DEBIT`/`ON_HOLD_FUNDS` transaction carrying the resolved
amount and the endorsement id, leaves every balance unchanged, and emits
exactly one `funds_locked` event with `status=ON_HOLD` and message
`"Insufficient funds"`. -/
theorem C2_insufficient_funds_parks
    (pricing : List (String × ℚ)) (st : LedgerState) (kp : JValue)
    (eid empId : String) (bal : ℚ)
    (h1 : getTruthyStr kp "endorsement_id" = some eid)
    (h2 : getTruthyStr kp "employer_id" = some empId)
    (hrt : getStrD kp "request_type" "ADDITION" = "ADDITION"
         ∨ getStrD kp "request_type" "ADDITION" = "MODIFICATION")
    (hemp : st.employers empId = some bal)
    (hins : bal < max 0 (resolveAmount pricing kp (getStrD kp "request_type" "ADDITION"))) :
    processCheckFunds pricing st kp =
      ({ st with txns := st.txns ++
          [⟨empId, some eid, "DEBIT",
            max 0 (resolveAmount pricing kp (getStrD kp "request_type" "ADDITION")),
            "ON_HOLD_FUNDS"⟩] },
       [.fundsLocked eid empId
          (max 0 (resolveAmount pricing kp (getStrD kp "request_type" "ADDITION")))
          "ON_HOLD" (getTruthyStr kp "trace_id") (some "Insufficient funds") none none]) := by
  have hcredit : pyUpper (getStrD kp "request_type" "ADDITION") ≠ "DELETION" := by
    rcases hrt with h | h <;> rw [h] <;> decide
  have hc1 : decide (pyUpper (getStrD kp "request_type" "ADDITION") = "DELETION") = false :=
    decide_eq_false hcredit
  have hc2 : decide
      (bal < max 0 (resolveAmount pricing kp (getStrD kp "request_type" "ADDITION"))) = true :=
    decide_eq_true hins
  simp only [processCheckFunds, h1, h2, hemp, hc1, hc2, Bool.not_false, Bool.true_and,
    if_true]

/-- Concrete state for the ledger witnesses: employer `E1` with balance `50`
and an empty ledger. -/
def w2State : LedgerState := ⟨fun e => if e = "E1" then some 50 else none, []⟩

/-- A `check_funds` event debiting `200` from `E1`. -/
def w2Event : JValue :=
  .obj [("endorsement_id", .str "e-2"), ("employer_id", .str "E1"),
        ("request_type", .str "ADDITION"), ("amount", .num 200)]

/-- Witness for C2: employer `E1` holds `50`, the event asks for `200`; the
run parks the debit. -/
theorem C2_insufficient_funds_parks_witness :
    (50 : ℚ) < max 0 (resolveAmount [("ADDITION", (500 : ℚ))] w2Event
        (getStrD w2Event "request_type" "ADDITION"))
    ∧ processCheckFunds [("ADDITION", (500 : ℚ))] w2State w2Event =
      ({ w2State with txns := w2State.txns ++
          [⟨"E1", some "e-2", "DEBIT",
            max 0 (resolveAmount [("ADDITION", (500 : ℚ))] w2Event
              (getStrD w2Event "request_type" "ADDITION")),
            "ON_HOLD_FUNDS"⟩] },
       [.fundsLocked "e-2" "E1"
          (max 0 (resolveAmount [("ADDITION", (500 : ℚ))] w2Event
            (getStrD w2Event "request_type" "ADDITION")))
          "ON_HOLD" (getTruthyStr w2Event "trace_id")
          (some "Insufficient funds") none none]) := by
  have hins : (50 : ℚ) < max 0 (resolveAmount [("ADDITION", (500 : ℚ))] w2Event
      (getStrD w2Event "request_type" "ADDITION")) := by decide
  exact ⟨hins, C2_insufficient_funds_parks [("ADDITION", (500 : ℚ))] w2State w2Event
    "e-2" "E1" 50 rfl rfl (Or.inl rfl) rfl hins⟩

/-! ## C1 -/

/-- Appending a transaction that fails the CREDIT/LOCKED-or-CLEARED filter
leaves `creditSum` unchanged. -/
theorem creditSum_append_irrel (l : List LedgerTxn) (t : LedgerTxn) (emp : String)
    (h : (t.employerId == emp && t.type == "CREDIT" &&
          (t.status == "LOCKED" || t.status == "CLEARED")) = false) :
    creditSum (l ++ [t]) emp = creditSum l emp := by
  simp [creditSum, List.filter_append, List.filter_cons, h]

/-- Appending a transaction that passes the CREDIT/LOCKED-or-CLEARED filter
adds its amount to `creditSum`. -/
theorem creditSum_append_rel (l : List LedgerTxn) (t : LedgerTxn) (emp : String)
    (h : (t.employerId == emp && t.type == "CREDIT" &&
          (t.status == "LOCKED" || t.status == "CLEARED")) = true) :
    creditSum (l ++ [t]) emp = creditSum l emp + t.amount := by
  simp [creditSum, List.filter_append, List.filter_cons, h]

/-- Appending a transaction that fails the DEBIT/LOCKED-or-CLEARED filter
leaves `debitSum` unchanged. -/
theorem debitSum_append_irrel (l : List LedgerTxn) (t : LedgerTxn) (emp : String)
    (h : (t.employerId == emp && t.type == "DEBIT" &&
          (t.status == "LOCKED" || t.status == "CLEARED")) = false) :
    debitSum (l ++ [t]) emp = debitSum l emp := by
  simp [debitSum, List.filter_append, List.filter_cons, h]

/-- Appending a transaction that passes the DEBIT/LOCKED-or-CLEARED filter
adds its amount to `debitSum`. -/
theorem debitSum_append_rel (l : List LedgerTxn) (t : LedgerTxn) (emp : String)
    (h : (t.employerId == emp && t.type == "DEBIT" &&
          (t.status == "LOCKED" || t.status == "CLEARED")) = true) :
    debitSum (l ++ [t]) emp = debitSum l emp + t.amount := by
  simp [debitSum, List.filter_append, List.filter_cons, h]

/-- Shape of the committed state after one `process_check_funds` call: either
nothing changed, or only an `ON_HOLD_FUNDS` debit row was appended, or the one
balance write is paired with the matching `LOCKED` row. -/
theorem processCheckFunds_cases (pricing : List (String × ℚ)) (st : LedgerState)
    (kp : JValue) :
    (processCheckFunds pricing st kp).1 = st
    ∨ (∃ (eid empId : String) (amount : ℚ), (processCheckFunds pricing st kp).1 =
        { st with txns := st.txns ++ [⟨empId, some eid, "DEBIT", amount, "ON_HOLD_FUNDS"⟩] })
    ∨ (∃ (eid empId : String) (amount bal : ℚ),
        st.employers empId = some bal ∧
        (processCheckFunds pricing st kp).1 =
          { employers := fun e => if e = empId then some (bal + amount) else st.employers e,
            txns := st.txns ++ [⟨empId, some eid, "CREDIT", amount, "LOCKED"⟩] })
    ∨ (∃ (eid empId : String) (amount bal : ℚ),
        st.employers empId = some bal ∧
        (processCheckFunds pricing st kp).1 =
          { employers := fun e => if e = empId then some (bal - amount) else st.employers e,
            txns := st.txns ++ [⟨empId, some eid, "DEBIT", amount, "LOCKED"⟩] }) := by
  unfold processCheckFunds
  cases hq : getTruthyStr kp "endorsement_id" with
  | none => exact Or.inl rfl
  | some eid =>
    cases hq2 : getTruthyStr kp "employer_id" with
    | none => exact Or.inl rfl
    | some empId =>
      dsimp only
      split
      · exact Or.inl rfl
      · split
        · exact Or.inr (Or.inl ⟨_, _, _, rfl⟩)
        · by_cases hcr : pyUpper (getStrD kp "request_type" "ADDITION") = "DELETION"
          · simp only [if_pos hcr]
            exact Or.inr (Or.inr (Or.inl ⟨_, _, _, _, by assumption, rfl⟩))
          · simp only [if_neg hcr]
            exact Or.inr (Or.inr (Or.inr ⟨_, _, _, _, by assumption, rfl⟩))

/-- One `process_check_funds` call preserves the reconciliation invariant. -/
theorem balancedStep (pricing : List (String × ℚ)) (st : LedgerState) (kp : JValue)
    (h : BalancedState st) : BalancedState (processCheckFunds pricing st kp).1 := by
  rcases processCheckFunds_cases pricing st kp with heq |
    ⟨eid, empId, amount, heq⟩ | ⟨eid, empId, amount, bal, hemp, heq⟩ |
    ⟨eid, empId, amount, bal, hemp, heq⟩
  · rwa [heq]
  · rw [heq]
    intro emp b hb
    rw [creditSum_append_irrel _ _ _ (by simp), debitSum_append_irrel _ _ _ (by simp)]
    exact h emp b hb
  · rw [heq]
    intro emp b hb
    by_cases he : emp = empId
    · rcases he with rfl
      simp only [if_pos rfl] at hb
      obtain rfl : bal + amount = b := Option.some.inj hb
      have hbal := h emp bal hemp
      rw [creditSum_append_rel _ _ _ (by simp), debitSum_append_irrel _ _ _ (by simp)]
      dsimp only
      linarith
    · simp only [if_neg he] at hb
      rw [creditSum_append_irrel _ _ _ (by simp [Ne.symm he]),
          debitSum_append_irrel _ _ _ (by simp [Ne.symm he])]
      exact h emp b hb
  · rw [heq]
    intro emp b hb
    by_cases he : emp = empId
    · rcases he with rfl
      simp only [if_pos rfl] at hb
      obtain rfl : bal - amount = b := Option.some.inj hb
      have hbal := h emp bal hemp
      rw [creditSum_append_irrel _ _ _ (by simp), debitSum_append_rel _ _ _ (by simp)]
      dsimp only
      linarith
    · simp only [if_neg he] at hb
      rw [creditSum_append_irrel _ _ _ (by simp [Ne.symm he]),
          debitSum_append_irrel _ _ _ (by simp [Ne.symm he])]
      exact h emp b hb

/-- C1: for every sequence of `check_funds` events, starting from any state
satisfying the reconciliation invariant, every committed state reached by
`process_check_funds` still satisfies `ea_balance = Σ CREDIT − Σ DEBIT` over
`LOCKED`/`CLEARED` rows, `ON_HOLD_FUNDS` debits contributing nothing. -/
theorem C1_balance_reconciles (pricing : List (String × ℚ)) (events : List JValue)
    (st : LedgerState) (h : BalancedState st) :
    BalancedState (events.foldl (fun s ev => (processCheckFunds pricing s ev).1) st) := by
  induction events generalizing st with
  | nil => exact h
  | cons ev evs ih => exact ih _ (balancedStep pricing st ev h)

/-- Initial state for the C1 witness: employer `E1` with balance `0` and an
empty ledger. -/
def w1State : LedgerState := ⟨fun e => if e = "E1" then some 0 else none, []⟩

/-- Two concrete events: a `DELETION` credit of `300` then an `ADDITION`
debit of `200`. -/
def w1Events : List JValue :=
  [.obj [("endorsement_id", .str "e-a"), ("employer_id", .str "E1"),
         ("request_type", .str "DELETION"), ("amount", .num 300)],
   .obj [("endorsement_id", .str "e-b"), ("employer_id", .str "E1"),
         ("request_type", .str "ADDITION"), ("amount", .num 200)]]

/-- The empty-ledger state with balance `0` is balanced. -/
theorem w1State_balanced : BalancedState w1State := by
  intro emp bal hb
  by_cases he : emp = "E1"
  · subst he
    simp only [w1State, if_pos rfl] at hb
    obtain rfl : (0 : ℚ) = bal := Option.some.inj hb
    simp [creditSum, debitSum, w1State]
  · simp [w1State, if_neg he] at hb

/-- Witness for C1 at the concrete two-event run from `w1State`. -/
theorem C1_balance_reconciles_witness :
    BalancedState w1State ∧
    BalancedState (w1Events.foldl
      (fun s ev => (processCheckFunds [("ADDITION", (500 : ℚ))] s ev).1) w1State) :=
  ⟨w1State_balanced,
   C1_balance_reconciles [("ADDITION", (500 : ℚ))] w1Events w1State w1State_balanced⟩

/-! ## C5 -/

/-- Pricing stub map for the C5 counterexample: `ADDITION` costs `500`. -/
def c5Pricing : List (String × ℚ) := [("ADDITION", (500 : ℚ))]

/-- A `check_funds` payload with an explicit negative `amount`. -/
def c5Payload : JValue := .obj [("amount", .num (-5))]

/-- C5 counterexample: the explicit `payload.amount = -5` is extracted, but
because it is not strictly positive the resolver falls back to the pricing
stub, so the locked amount is the stub price `500`, not the `0` the claim
predicts. -/
theorem C5_counterexample :
    extractAmount c5Payload = -5
    ∧ max 0 (resolveAmount c5Pricing c5Payload "ADDITION") = 500
    ∧ (500 : ℚ) ≠ 0 := by
  refine ⟨rfl, by decide, by decide⟩

/-- C5 amended: the extraction precedence is `payload.amount` >
`payload.payload.amount` > `payload.payload.coverage.amount`, each consulted
only when the earlier key is absent; the pricing stub is used whenever the
extracted value is absent, non-numeric, or `≤ 0` — not only when the keys are
absent — and the `max 0` clamp applies to the final resolved value, so an
explicit negative `payload.amount` yields the stub price. -/
theorem C5_resolution_precedence
    (pricing : List (String × ℚ)) (kp : JValue) (rt : String) :
    (0 < extractAmount kp → resolveAmount pricing kp rt = extractAmount kp)
    ∧ (extractAmount kp ≤ 0 → resolveAmount pricing kp rt = getEndorsementPrice pricing rt)
    ∧ (∀ a, kp.get "amount" = some a → extractAmountRaw kp = some a)
    ∧ (∀ pp a, kp.get "amount" = none → kp.get "payload" = some pp →
         pp.truthy = true → pp.get "amount" = some a → extractAmountRaw kp = some a)
    ∧ (∀ pp cov a, kp.get "amount" = none → kp.get "payload" = some pp →
         pp.truthy = true → pp.get "amount" = none → pp.get "coverage" = some cov →
         cov.truthy = true → cov.get "amount" = some a → extractAmountRaw kp = some a) := by
  refine ⟨?_, ?_, ?_, ?_, ?_⟩
  · intro h
    simp only [resolveAmount]
    rw [if_pos h]
  · intro h
    simp only [resolveAmount]
    rw [if_neg (not_lt.mpr h)]
  · intro a ha
    simp [extractAmountRaw, ha]
  · intro pp a hnone hpp hpt ha
    simp [extractAmountRaw, hnone, hpp, hpt, ha]
  · intro pp cov a hnone hpp hpt hnone2 hcov hct ha
    simp [extractAmountRaw, hnone, hpp, hpt, hnone2, hcov, hct, ha]

/-- Witness for C5's amended statement: a positive explicit amount is used
as-is, and the negative-amount payload falls back to the stub. -/
theorem C5_resolution_precedence_witness :
    ((0 : ℚ) < extractAmount (.obj [("amount", .num 200)])
      ∧ resolveAmount c5Pricing (.obj [("amount", .num 200)]) "ADDITION"
          = extractAmount (.obj [("amount", .num 200)]))
    ∧ (extractAmount c5Payload ≤ 0
      ∧ resolveAmount c5Pricing c5Payload "ADDITION"
          = getEndorsementPrice c5Pricing "ADDITION") := by
  constructor
  · exact ⟨by decide,
      (C5_resolution_precedence c5Pricing (.obj [("amount", .num 200)]) "ADDITION").1
        (by decide)⟩
  · exact ⟨by decide,
      (C5_resolution_precedence c5Pricing c5Payload "ADDITION").2.1 (by decide)⟩

/-- Witness for C8's amended statement at the concrete `c8Event`. -/
theorem C8_resolution_precedence_witness :
    getTruthyStr (buildInsurerRequestPayload c8Event none) "insurer_id" = some "A"
    ∧ resolveInsurerIdGateway c8Event = some "B" :=
  C8_resolution_precedence c8Event
    (.obj [("insurer_id", .str "A"), ("coverage", .obj [("insurer_id", .str "B")])])
    (.obj [("insurer_id", .str "B")]) none "A" "B"
    rfl rfl rfl (by decide) rfl rfl rfl (by decide)

/-! ## C6 -/

/-- Inserting preserves the multiset of requests. -/
theorem insertByPrio_perm (x : JValue) (l : List JValue) :
    (insertByPrio x l).Perm (x :: l) := by
  induction l with
  | nil => exact List.Perm.refl _
  | cons y ys ih =>
    unfold insertByPrio
    by_cases hlt : schedulerPrio y < schedulerPrio x
    · rw [if_pos hlt]
      exact (ih.cons y).trans (List.Perm.swap x y ys)
    · rw [if_neg hlt]

/-- The published batch is a permutation of the parsed requests. -/
theorem sortByPrio_perm (l : List JValue) : (sortByPrio l).Perm l := by
  induction l with
  | nil => exact List.Perm.refl _
  | cons x xs ih => exact (insertByPrio_perm x (sortByPrio xs)).trans (ih.cons x)

/-- Inserting preserves sortedness by priority. -/
theorem insertByPrio_pairwise (x : JValue) (l : List JValue)
    (h : l.Pairwise (fun a b => schedulerPrio a ≤ schedulerPrio b)) :
    (insertByPrio x l).Pairwise (fun a b => schedulerPrio a ≤ schedulerPrio b) := by
  induction l with
  | nil => simp [insertByPrio]
  | cons y ys ih =>
    rw [List.pairwise_cons] at h
    obtain ⟨hy, hys⟩ := h
    unfold insertByPrio
    by_cases hlt : schedulerPrio y < schedulerPrio x
    · rw [if_pos hlt]
      rw [List.pairwise_cons]
      refine ⟨?_, ih hys⟩
      intro z hz
      rcases List.mem_cons.mp ((insertByPrio_perm x ys).mem_iff.mp hz) with rfl | hz'
      · exact le_of_lt hlt
      · exact hy z hz'
    · rw [if_neg hlt]
      push_neg at hlt
      rw [List.pairwise_cons]
      refine ⟨?_, List.pairwise_cons.mpr ⟨hy, hys⟩⟩
      intro z hz
      rcases List.mem_cons.mp hz with rfl | hz'
      · exact hlt
      · exact le_trans hlt (hy z hz')

/-- The published batch is sorted by ascending priority. -/
theorem sortByPrio_pairwise (l : List JValue) :
    (sortByPrio l).Pairwise (fun a b => schedulerPrio a ≤ schedulerPrio b) := by
  induction l with
  | nil => simp [sortByPrio]
  | cons x xs ih => exact insertByPrio_pairwise x (sortByPrio xs) ih

/-- Filtering one priority class through an insertion: the new element lands in
front of its own class and leaves every other class untouched. -/
theorem insertByPrio_filter (x : JValue) (l : List JValue) (p : Nat) :
    (insertByPrio x l).filter (fun r => schedulerPrio r == p)
      = if schedulerPrio x == p then
          x :: l.filter (fun r => schedulerPrio r == p)
        else l.filter (fun r => schedulerPrio r == p) := by
  induction l with
  | nil =>
    by_cases hx : (schedulerPrio x == p) = true <;>
      simp [insertByPrio, List.filter, hx]
  | cons y ys ih =>
    unfold insertByPrio
    by_cases hlt : schedulerPrio y < schedulerPrio x
    · rw [if_pos hlt]
      by_cases hyp : (schedulerPrio y == p) = true
      · have hxp : (schedulerPrio x == p) = false := by
          have hne : schedulerPrio x ≠ p := by
            have : schedulerPrio y = p := by simpa using hyp
            omega
          simpa using hne
        simp [List.filter_cons, hyp, hxp, ih]
      · simp [List.filter_cons, hyp, ih]
    · rw [if_neg hlt]
      by_cases hx : (schedulerPrio x == p) = true <;>
        simp [List.filter_cons, hx]

/-- FIFO stability: each priority class of the published batch equals that
class of the parsed input, in arrival order. -/
theorem sortByPrio_filter (l : List JValue) (p : Nat) :
    (sortByPrio l).filter (fun r => schedulerPrio r == p)
      = l.filter (fun r => schedulerPrio r == p) := by
  induction l with
  | nil => rfl
  | cons x xs ih =>
    show (insertByPrio x (sortByPrio xs)).filter _ = _
    rw [insertByPrio_filter]
    by_cases hx : (schedulerPrio x == p) = true <;>
      simp [List.filter_cons, hx, ih]

/-- C6: the sequence the Smart Scheduler publishes is a permutation of the
successfully parsed buffered items, sorted by ascending priority (`DELETION`
before `MODIFICATION` before `ADDITION` before unknown types), and each
priority class keeps its FIFO arrival order. -/
theorem C6_batch_priority_order (items : List (Option JValue)) :
    (processBatch items).Perm (items.filterMap id)
    ∧ (processBatch items).Pairwise (fun a b => schedulerPrio a ≤ schedulerPrio b)
    ∧ ∀ p, (processBatch items).filter (fun r => schedulerPrio r == p)
        = (items.filterMap id).filter (fun r => schedulerPrio r == p) :=
  ⟨sortByPrio_perm (items.filterMap id),
   sortByPrio_pairwise (items.filterMap id),
   fun p => sortByPrio_filter (items.filterMap id) p⟩

/-! ## C7 -/

/-- First parked row for the hold-release scenarios (arrived first). -/
def c7Row1 : EndorsementRow :=
  ⟨"h1", "M7", "ADDITION", "ON_HOLD", .obj [], 0, none, "2026-01-01"⟩

/-- Second parked row for the hold-release scenarios (arrived second). -/
def c7Row2 : EndorsementRow :=
  ⟨"h2", "M7", "ADDITION", "ON_HOLD", .obj [], 0, none, "2026-01-02"⟩

/-- A `ledger.balance_increased` event for employer `M7`. -/
def c7Event : JValue :=
  .obj [("employer_id", .str "M7"), ("change_amount", .num 300),
        ("new_balance", .num 350)]

/-- The row an update to `VALIDATED` (with the event's employer id) produces. -/
def releasedRow (empId : String) (r : EndorsementRow) : EndorsementRow :=
  { r with status := "VALIDATED", employerId := empId }

/-- The table after the release loop: every row whose id occurs in the fetched
list is rewritten to `VALIDATED` with the event's employer id; the result does
not depend on which publishes succeed. -/
theorem releaseLoop_table (empId : String) (pubOk : Nat → Bool) (i : Nat)
    (table fetched : List EndorsementRow) :
    (releaseLoop empId pubOk i table fetched).1
      = table.map (fun r => if fetched.any (fun f => f.id == r.id)
          then releasedRow empId r else r) := by
  induction fetched generalizing table i with
  | nil => simp [releaseLoop]
  | cons f rest ih =>
    show (releaseLoop empId pubOk (i + 1)
        (repoUpdate table f.id ⟨some empId, some "VALIDATED", none⟩).1 rest).1 = _
    rw [ih]
    show (List.map _ (List.map _ table)) = _
    rw [List.map_map]
    apply List.map_congr_left
    intro r _
    by_cases hf : r.id = f.id
    · have hb : (f.id == r.id) = true := by simp [hf]
      simp only [Function.comp, repoUpdate, applyValues, if_pos hf]
      have hid : ({ r with
          employerId := (some empId).getD r.employerId,
          status := (some "VALIDATED").getD r.status,
          retryCount := (none : Option Nat).getD r.retryCount } : EndorsementRow).id
            = r.id := rfl
      by_cases ha : rest.any (fun f' => f'.id == r.id) = true
      · simp [hid, ha, hb, releasedRow, List.any_cons]
      · simp [hid, ha, hb, releasedRow, List.any_cons]
    · have hb : (f.id == r.id) = false := by
        simpa using fun e => hf e.symm
      simp [Function.comp, repoUpdate, applyValues, hf, hb, List.any_cons]

/-- The release loop records one produce attempt per fetched row, carrying the
`ledger.check_funds` payload of that row, in fetched order. -/
theorem releaseLoop_pubs (empId : String) (pubOk : Nat → Bool) (i : Nat)
    (table fetched : List EndorsementRow) :
    (releaseLoop empId pubOk i table fetched).2.map (fun p => p.2)
      = fetched.map checkFundsRetryPayload := by
  induction fetched generalizing table i with
  | nil => simp [releaseLoop]
  | cons f rest ih =>
    show (checkFundsRetryPayload f) :: _ = _
    rw [ih]
    simp

/-- C7 amended: hold-release sets every `ON_HOLD` request of the employer to
`VALIDATED` (regardless of which publishes succeed) and records one
`ledger.check_funds` publish attempt per released request — in the order the
un-ordered `SELECT` returned the rows, which need not be arrival order. -/
theorem C7_release_behaviour (table : List EndorsementRow) (ev : JValue)
    (empId : String) (fetched : List EndorsementRow) (pubOk : Nat → Bool)
    (hemp : getTruthyStr ev "employer_id" = some empId)
    (hperm : fetched.Perm (onHoldRows table empId)) :
    (releaseOnHoldRequests table ev fetched pubOk).1
      = table.map (fun r => if fetched.any (fun f => f.id == r.id)
          then releasedRow empId r else r)
    ∧ (releaseOnHoldRequests table ev fetched pubOk).2.map (fun p => p.2)
      = fetched.map checkFundsRetryPayload
    ∧ ∀ r ∈ table, r.employerId = empId → r.status = "ON_HOLD" →
        releasedRow empId r ∈ (releaseOnHoldRequests table ev fetched pubOk).1 := by
  unfold releaseOnHoldRequests
  rw [hemp]
  dsimp only
  by_cases hf : fetched.isEmpty = true
  · obtain rfl : fetched = [] := List.isEmpty_iff.mp hf
    rw [if_pos hf]
    refine ⟨by simp, by simp, ?_⟩
    intro r hr hremp hrstat
    have hmem : r ∈ onHoldRows table empId :=
      List.mem_filter.mpr ⟨hr, by simp [hremp, hrstat]⟩
    rw [List.perm_nil.mp hperm.symm] at hmem
    exact absurd hmem (List.not_mem_nil r)
  · rw [if_neg hf]
    refine ⟨releaseLoop_table empId pubOk 0 table fetched,
      releaseLoop_pubs empId pubOk 0 table fetched, ?_⟩
    intro r hr hremp hrstat
    have hmem : r ∈ onHoldRows table empId :=
      List.mem_filter.mpr ⟨hr, by simp [hremp, hrstat]⟩
    have hrf : r ∈ fetched := hperm.mem_iff.mpr hmem
    have hany : fetched.any (fun f => f.id == r.id) = true :=
      List.any_eq_true.mpr ⟨r, hrf, by simp⟩
    rw [releaseLoop_table]
    have hmm := List.mem_map_of_mem
      (fun r' => if fetched.any (fun f => f.id == r'.id)
        then releasedRow empId r' else r') hr
    simp only [hany, if_true] at hmm
    exact hmm

/-- Witness for C7's amended statement at a one-row table with every publish
failing: the row is still set to `VALIDATED`. -/
theorem C7_release_behaviour_witness :
    (releaseOnHoldRequests [c7Row1] c7Event [c7Row1] (fun _ => false)).1
      = [c7Row1].map (fun r => if [c7Row1].any (fun f => f.id == r.id)
          then releasedRow "M7" r else r)
    ∧ (releaseOnHoldRequests [c7Row1] c7Event [c7Row1] (fun _ => false)).2.map
        (fun p => p.2) = [c7Row1].map checkFundsRetryPayload
    ∧ ∀ r ∈ [c7Row1], r.employerId = "M7" → r.status = "ON_HOLD" →
        releasedRow "M7" r ∈ (releaseOnHoldRequests [c7Row1] c7Event [c7Row1]
          (fun _ => false)).1 :=
  C7_release_behaviour [c7Row1] c7Event "M7" [c7Row1] (fun _ => false) rfl
    (List.Perm.refl _)

/-- C7 counterexample: the `SELECT` behind hold-release has no `ORDER BY`, so
the database may return the parked rows in any order; with the two parked rows
returned in reverse, the republished `check_funds` sequence is `h2` then `h1`,
not the arrival order `h1` then `h2` the claim requires. -/
theorem C7_counterexample :
    onHoldRows [c7Row1, c7Row2] "M7" = [c7Row1, c7Row2]
    ∧ List.Perm [c7Row2, c7Row1] (onHoldRows [c7Row1, c7Row2] "M7")
    ∧ ((releaseOnHoldRequests [c7Row1, c7Row2] c7Event [c7Row2, c7Row1]
        (fun _ => true)).2.map (fun p => getTruthyStr p.2 "endorsement_id"))
      = [some "h2", some "h1"]
    ∧ ([some "h2", some "h1"] : List (Option String)) ≠ [some "h1", some "h2"] :=
  ⟨rfl, List.Perm.swap c7Row1 c7Row2 [], rfl, by decide⟩

/-! ## C9 -/

/-- Header sanitisation keeps every header name in place and rewrites exactly
the flagged values to `***`. -/
theorem sanitizeHeaders_spec (headers : List (String × String)) :
    (sanitizeHeaders headers).map Prod.fst = headers.map Prod.fst
    ∧ ∀ kv ∈ sanitizeHeaders headers,
        (flaggedHeader kv.1 = true → kv.2 = "***")
        ∧ (flaggedHeader kv.1 = false → kv ∈ headers) := by
  constructor
  · rw [sanitizeHeaders, List.map_map]
    apply List.map_congr_left
    intro kv _
    by_cases h : flaggedHeader kv.1 = true <;> simp [Function.comp, h]
  · intro kv hkv
    rw [sanitizeHeaders, List.mem_map] at hkv
    obtain ⟨kv', hkv', heq⟩ := hkv
    by_cases h : flaggedHeader kv'.1 = true
    · rw [if_pos h] at heq
      subst heq
      exact ⟨fun _ => rfl, fun hflag => by simp [h] at hflag⟩
    · rw [if_neg h] at heq
      subst heq
      exact ⟨fun hflag => absurd hflag h, fun _ => hkv'⟩

mutual

/-- After masking, no sensitive key anywhere carries anything but `***`. -/
theorem noLeak_mask (v : JValue) : noLeak (maskSensitiveData v) = true := by
  cases v with
  | obj fields =>
    show noLeakFields (maskFields fields) = true
    exact noLeakFields_maskFields fields
  | arr items =>
    show noLeakItems (maskItems items) = true
    exact noLeakItems_maskItems items
  | null => rfl
  | bool b => rfl
  | num q => rfl
  | str s => rfl

/-- `noLeak_mask` over dictionary fields. -/
theorem noLeakFields_maskFields (l : List (String × JValue)) :
    noLeakFields (maskFields l) = true := by
  cases l with
  | nil => rfl
  | cons kv rest =>
    by_cases hs : sensitiveKey kv.1 = true <;>
      simp [maskFields, noLeakFields, hs, noLeak_mask kv.2,
        noLeakFields_maskFields rest]

/-- `noLeak_mask` over list items. -/
theorem noLeakItems_maskItems (l : List JValue) :
    noLeakItems (maskItems l) = true := by
  cases l with
  | nil => rfl
  | cons v rest =>
    simp [maskItems, noLeakItems, noLeak_mask v, noLeakItems_maskItems rest]

end

mutual

/-- Masking changes nothing in a value without sensitive keys. -/
theorem mask_id (v : JValue) (h : noSensitiveKeys v = true) :
    maskSensitiveData v = v := by
  cases v with
  | obj fields =>
    show JValue.obj (maskFields fields) = JValue.obj fields
    rw [maskFields_id fields h]
  | arr items =>
    show JValue.arr (maskItems items) = JValue.arr items
    rw [maskItems_id items h]
  | null => rfl
  | bool b => rfl
  | num q => rfl
  | str s => rfl

/-- `mask_id` over dictionary fields. -/
theorem maskFields_id (l : List (String × JValue))
    (h : noSensitiveKeysFields l = true) : maskFields l = l := by
  cases l with
  | nil => rfl
  | cons kv rest =>
    rw [show noSensitiveKeysFields (kv :: rest)
        = (!sensitiveKey kv.1 && noSensitiveKeys kv.2 && noSensitiveKeysFields rest)
      from rfl, Bool.and_eq_true, Bool.and_eq_true] at h
    obtain ⟨⟨hk, hv⟩, hrest⟩ := h
    have hk' : sensitiveKey kv.1 = false := by
      cases hks : sensitiveKey kv.1
      · rfl
      · rw [hks] at hk
        exact absurd hk (by decide)
    show (kv.1, if sensitiveKey kv.1 then JValue.str "***"
          else maskSensitiveData kv.2) :: maskFields rest = kv :: rest
    rw [hk', maskFields_id rest hrest, mask_id kv.2 hv]
    simp

/-- `mask_id` over list items. -/
theorem maskItems_id (l : List JValue) (h : noSensitiveKeysItems l = true) :
    maskItems l = l := by
  cases l with
  | nil => rfl
  | cons v rest =>
    rw [show noSensitiveKeysItems (v :: rest)
        = (noSensitiveKeys v && noSensitiveKeysItems rest) from rfl,
      Bool.and_eq_true] at h
    show maskSensitiveData v :: maskItems rest = v :: rest
    rw [mask_id v h.1, maskItems_id rest h.2]

end

/-- The key list of a dictionary value (empty for non-dictionaries). -/
def objKeys : JValue → List String
  | .obj fields => fields.map Prod.fst
  | _ => []

/-- Masking never adds, drops or reorders dictionary keys. -/
theorem maskFields_keys (l : List (String × JValue)) :
    (maskFields l).map Prod.fst = l.map Prod.fst := by
  induction l with
  | nil => rfl
  | cons kv rest ih =>
    obtain ⟨k, v⟩ := kv
    simp [maskFields, ih]

/-- `objKeys` is invariant under masking. -/
theorem objKeys_mask (v : JValue) : objKeys (maskSensitiveData v) = objKeys v := by
  cases v with
  | obj fields =>
    show (maskFields fields).map Prod.fst = fields.map Prod.fst
    exact maskFields_keys fields
  | arr items => rfl
  | null => rfl
  | bool b => rfl
  | num q => rfl
  | str s => rfl

/-- Dictionary access after masking, related to dictionary access before it:
a key absent stays absent; a present sensitive key's value is the literal
`***`; a present non-sensitive key's value is the mask of its original
value. -/
theorem lookupField_maskFields (l : List (String × JValue)) (key : String) :
    lookupField (maskFields l) key
      = (lookupField l key).map
          (fun v => if sensitiveKey key then JValue.str "***"
                    else maskSensitiveData v) := by
  induction l with
  | nil => rfl
  | cons kv rest ih =>
    obtain ⟨k, v⟩ := kv
    by_cases hk : k = key
    · subst hk
      simp [maskFields, lookupField]
    · simp [maskFields, lookupField, hk, ih]

/-- Masking a list masks each element in place. -/
theorem maskItems_eq_map (l : List JValue) :
    maskItems l = l.map maskSensitiveData := by
  induction l with
  | nil => rfl
  | cons v rest ih => simp [maskItems, ih]

/-- C9: header sanitisation replaces exactly the values of headers whose
lowercased name contains `authorization`, `token` or `secret` with `***`
(leaving the others untouched); body masking keeps every dictionary key in
place and, for any key, yields the literal `***` exactly when the key is
`ssn`/`dob` (case-insensitively) and the recursively masked original value
otherwise, maps lists element by element, leaves scalars unchanged (so the
property holds at any nesting depth, through dictionaries and lists), leaves a
value without sensitive keys entirely unchanged, and its output never carries
a non-`***` value under a sensitive key. -/
theorem C9_sanitisation (headers : List (String × String)) (body : JValue)
    (fields : List (String × JValue)) (key : String) (items : List JValue)
    (s : String) (q : ℚ) (b : Bool) :
    ((sanitizeHeaders headers).map Prod.fst = headers.map Prod.fst
      ∧ ∀ kv ∈ sanitizeHeaders headers,
          (flaggedHeader kv.1 = true → kv.2 = "***")
          ∧ (flaggedHeader kv.1 = false → kv ∈ headers))
    ∧ objKeys (maskSensitiveData body) = objKeys body
    ∧ (maskSensitiveData (.obj fields)).get key
        = ((JValue.obj fields).get key).map
            (fun v => if sensitiveKey key then JValue.str "***"
                      else maskSensitiveData v)
    ∧ maskSensitiveData (.arr items) = .arr (items.map maskSensitiveData)
    ∧ maskSensitiveData (.str s) = .str s
    ∧ maskSensitiveData (.num q) = .num q
    ∧ maskSensitiveData (.bool b) = .bool b
    ∧ maskSensitiveData .null = .null
    ∧ noLeak (maskSensitiveData body) = true
    ∧ (noSensitiveKeys body = true → maskSensitiveData body = body) :=
  ⟨sanitizeHeaders_spec headers,
   objKeys_mask body,
   lookupField_maskFields fields key,
   by rw [show maskSensitiveData (.arr items) = .arr (maskItems items) from rfl,
        maskItems_eq_map],
   rfl, rfl, rfl, rfl,
   noLeak_mask body,
   mask_id body⟩

/-- Concrete header list for the C9 witness. -/
def wHeaders : List (String × String) :=
  [("Authorization", "Bearer token-123"), ("Content-Type", "application/json")]

/-- Concrete request body with nested sensitive keys for the C9 witness. -/
def wBody : JValue :=
  .obj [("ssn", .str "123-45-6789"), ("name", .str "Ann"),
        ("deps", .arr [.obj [("dob", .str "2001-01-01")]])]

/-- Concrete body without sensitive keys for the C9 witness. -/
def wClean : JValue := .obj [("name", .str "Ann")]

/-- The field list of `wBody`. -/
def wFields : List (String × JValue) :=
  [("ssn", .str "123-45-6789"), ("name", .str "Ann"),
   ("deps", .arr [.obj [("dob", .str "2001-01-01")]])]

/-- Witness for C9 at concrete headers and bodies: the `ssn` lookup on the
masked body, the identity on a sensitive-free body (discharging the
`noSensitiveKeys` hypothesis), and the header guarantees. -/
theorem C9_sanitisation_witness :
    (maskSensitiveData (.obj wFields)).get "ssn"
      = ((JValue.obj wFields).get "ssn").map
          (fun v => if sensitiveKey "ssn" then JValue.str "***"
                    else maskSensitiveData v)
    ∧ (maskSensitiveData (.obj wFields)).get "name"
      = ((JValue.obj wFields).get "name").map
          (fun v => if sensitiveKey "name" then JValue.str "***"
                    else maskSensitiveData v)
    ∧ objKeys (maskSensitiveData wBody) = objKeys wBody
    ∧ noLeak (maskSensitiveData wBody) = true
    ∧ maskSensitiveData wClean = wClean
    ∧ ∀ kv ∈ sanitizeHeaders wHeaders,
        (flaggedHeader kv.1 = true → kv.2 = "***")
        ∧ (flaggedHeader kv.1 = false → kv ∈ wHeaders) :=
  ⟨(C9_sanitisation wHeaders wBody wFields "ssn" [] "" 0 true).2.2.1,
   (C9_sanitisation wHeaders wBody wFields "name" [] "" 0 true).2.2.1,
   (C9_sanitisation wHeaders wBody wFields "ssn" [] "" 0 true).2.1,
   (C9_sanitisation wHeaders wBody wFields "ssn" [] "" 0 true).2.2.2.2.2.2.2.2.1,
   (C9_sanitisation wHeaders wClean wFields "ssn" [] "" 0 true).2.2.2.2.2.2.2.2.2
     (by simp [wClean, noSensitiveKeys, noSensitiveKeysFields, sensitiveKey, pyLower]),
   (C9_sanitisation wHeaders wBody wFields "ssn" [] "" 0 true).1.2⟩

end EMS
